import Mathlib

/-!
# Verification of `strip.py` (StripPython)

Shallow embedding of the token-rewriting loop `stripFile` of `src/strip.py`
and proofs about it.  The Python function consumes a stream of lexical
tokens (kind, text, positions) and writes compacted source text to a
destination sink; positions are used only by the (broken) debug trace, so
tokens are modelled as kind plus text.  The mutable loop state
(`previousTokenType`, `indentLevel`, `didNewLine`, `needNewLine`) together
with the text written so far is modelled as an explicit `StripState`; one
loop iteration is the function `stepTok`.  Python `NameError` crash sites
(the reference to the undefined name `mod` on line 87, and the debug print
on lines 61-69 whose format arguments `indentCount`, `srcLine`, `srcCol`,
`elineno`, `ecol`, `ltext` are all undefined) are modelled by returning
`none`.
-/

/-- Token kinds distinguished by `stripFile`.  The Python code compares the
numeric `tokenType` against `token.STRING`, `token.COMMENT`, `token.INDENT`,
`token.DEDENT`, `token.NEWLINE`, `token.NL`, `token.NAME` and
`token.NUMBER`; every other kind falls through to the final `else` branch.
`OP` and `ENDMARKER` stand for such other kinds (operators, punctuation,
end-of-file marker). -/
inductive TokType where
  | NAME
  | NUMBER
  | STRING
  | COMMENT
  | NEWLINE
  | NL
  | INDENT
  | DEDENT
  | OP
  | ENDMARKER
deriving DecidableEq, Repr

/-- A lexical token: its kind and its literal text.  Source positions are
dropped: `stripFile` only reads them in the debug trace, which crashes
before using them (see `stepTok`). -/
structure Token where
  type : TokType
  text : String
deriving DecidableEq, Repr

/-- The loop state of `stripFile` (lines 50-53 of `src/strip.py`) together
with the text written to `destination` so far. -/
structure StripState where
  previousTokenType : TokType
  indentLevel : Int
  didNewLine : Bool
  needNewLine : Bool
  out : String
deriving DecidableEq, Repr

/-- Python string repetition `s * n`: `n` copies for `n > 0`, the empty
string for `n ≤ 0`. -/
def pyRepeat (s : String) (n : Int) : String :=
  String.join (List.replicate n.toNat s)

/-- Line 54: `indentChar = "\t" if indent == 0 else " " * indent`. -/
def indentCharOf (indent : Int) : String :=
  if indent == 0 then "\t" else pyRepeat " " indent

/-- Lines 50-53: the initial loop state.  `previousTokenType` starts at the
sentinel `token.INDENT` so that a leading docstring is recognized. -/
def initState : StripState :=
  { previousTokenType := TokType.INDENT
    indentLevel := 0
    didNewLine := false
    needNewLine := false
    out := "" }

/-- Lines 74-75: the condition under which a token is dropped (the negation
of the `if` guard): a STRING while `previousTokenType` is the sentinel
`INDENT`, or any COMMENT. -/
def dropCond (st : StripState) (t : Token) : Prop :=
  (t.type = TokType.STRING ∧ st.previousTokenType = TokType.INDENT)
    ∨ t.type = TokType.COMMENT

instance (st : StripState) (t : Token) : Decidable (dropCond st t) := by
  unfold dropCond; infer_instance

/-- Lines 120-121: insert one space between two adjacent NAME/NUMBER
tokens. -/
def spaceCond (prev cur : TokType) : Prop :=
  (cur = TokType.NAME ∨ cur = TokType.NUMBER)
    ∧ (prev = TokType.NAME ∨ prev = TokType.NUMBER)

instance (prev cur : TokType) : Decidable (spaceCond prev cur) := by
  unfold spaceCond; infer_instance

/-- One iteration of the loop body of `stripFile` (lines 58-127 of
`src/strip.py`).

* If `debug` is true, the `print` on lines 61-69 evaluates the undefined
  names `indentCount`, `srcLine`, `srcCol`, `elineno`, `ecol`, `ltext` and
  raises `NameError`: modelled as `none`.
* Lines 74-75: a dropped token (leading docstring or comment) skips the
  whole body, including the `previousTokenType` update on line 127.
* Lines 78-89 (INDENT): increment `indentLevel`; if `didNewLine` the code
  executes `mod.write( indentChar )` where `mod` is an undefined name, so
  it raises `NameError`: modelled as `none`; otherwise set `needNewLine`.
* Lines 91-100 (DEDENT): decrement `indentLevel`; if `didNewLine` set
  `needNewLine`.
* Lines 102-104 (NEWLINE/NL): set `needNewLine`.
* Lines 106-125 (everything else): flush a pending line break plus
  `indentChar * indentLevel`, maybe a separating space, then the token
  text.
* Line 127: every processed (non-dropped) token becomes
  `previousTokenType`. -/
def stepTok (indentChar : String) (debug : Bool) (st : StripState)
    (t : Token) : Option StripState :=
  if debug then
    none
  else if dropCond st t then
    some st
  else if t.type = TokType.INDENT then
    if st.didNewLine then
      none
    else
      some { st with
        indentLevel := st.indentLevel + 1
        needNewLine := true
        previousTokenType := TokType.INDENT }
  else if t.type = TokType.DEDENT then
    some { st with
      indentLevel := st.indentLevel - 1
      needNewLine := if st.didNewLine then true else st.needNewLine
      previousTokenType := TokType.DEDENT }
  else if t.type = TokType.NEWLINE ∨ t.type = TokType.NL then
    some { st with
      needNewLine := true
      previousTokenType := t.type }
  else
    let st1 :=
      if st.needNewLine then
        { st with
          out := st.out ++ "\n" ++ pyRepeat indentChar st.indentLevel
          didNewLine := true
          needNewLine := false }
      else
        { st with didNewLine := false }
    let sep := if spaceCond st.previousTokenType t.type then " " else ""
    some { st1 with
      out := st1.out ++ sep ++ t.text
      previousTokenType := t.type }

/-- Run the loop from an arbitrary state over a list of tokens. -/
def runFrom (indentChar : String) (debug : Bool) (st : StripState)
    (ts : List Token) : Option StripState :=
  ts.foldlM (stepTok indentChar debug) st

/-- Run the loop from the initial state (the whole loop of `stripFile`). -/
def stripRun (indentChar : String) (debug : Bool) (ts : List Token) :
    Option StripState :=
  runFrom indentChar debug initState ts

/-- `stripFile source destination indent debug` of `src/strip.py`, with the
token stream read from `source` as input and the text written to
`destination` as output; `none` models a `NameError` escaping the call. -/
def stripFile (source : List Token) (indent : Int) (debug : Bool) :
    Option String :=
  (stripRun (indentCharOf indent) debug source).map StripState.out

/-! ## Token-kind classification and counting -/

/-- Kinds handled by the NEWLINE/NL branch (lines 102-104). -/
def isNLKind (k : TokType) : Prop :=
  k = TokType.NEWLINE ∨ k = TokType.NL

instance (k : TokType) : Decidable (isNLKind k) := by
  unfold isNLKind; infer_instance

/-- Kinds that schedule a line break rather than writing text: they are
handled by the INDENT, DEDENT or NEWLINE/NL branches. -/
def isBreakKind (k : TokType) : Prop :=
  k = TokType.NEWLINE ∨ k = TokType.NL ∨ k = TokType.INDENT ∨ k = TokType.DEDENT

instance (k : TokType) : Decidable (isBreakKind k) := by
  unfold isBreakKind; infer_instance

/-- Kinds that reach the final `else` branch (lines 106-125) and write their
text to the destination: everything except the break kinds and COMMENT. -/
def isContentKind (k : TokType) : Prop :=
  ¬isBreakKind k ∧ k ≠ TokType.COMMENT

instance (k : TokType) : Decidable (isContentKind k) := by
  unfold isContentKind; infer_instance

/-- Number of INDENT tokens in a stream (as an integer, to compare with
`indentLevel`). -/
def countIndent : List Token → Int
  | [] => 0
  | t :: ts => (if t.type = TokType.INDENT then 1 else 0) + countIndent ts

/-- Number of DEDENT tokens in a stream (as an integer, to compare with
`indentLevel`). -/
def countDedent : List Token → Int
  | [] => 0
  | t :: ts => (if t.type = TokType.DEDENT then 1 else 0) + countDedent ts

/-! ## Characterization of single steps -/

theorem runFrom_nil (ic : String) (dbg : Bool) (st : StripState) :
    runFrom ic dbg st [] = some st := rfl

theorem runFrom_cons (ic : String) (dbg : Bool) (st : StripState)
    (t : Token) (ts : List Token) :
    runFrom ic dbg st (t :: ts)
      = (stepTok ic dbg st t).bind fun st1 => runFrom ic dbg st1 ts := by
  cases h : stepTok ic dbg st t <;>
    simp [runFrom, List.foldlM_cons, h, Option.bind]

theorem runFrom_append (ic : String) (dbg : Bool) (st : StripState)
    (ts1 ts2 : List Token) :
    runFrom ic dbg st (ts1 ++ ts2)
      = (runFrom ic dbg st ts1).bind fun st1 => runFrom ic dbg st1 ts2 := by
  induction ts1 generalizing st with
  | nil => simp [runFrom_nil, Option.bind]
  | cons t ts1 ih =>
      rw [List.cons_append, runFrom_cons, runFrom_cons]
      cases stepTok ic dbg st t <;> simp [ih]

/-- A token satisfying the drop condition is skipped: no output, no state
change. -/
theorem stepTok_drop (ic : String) (st : StripState) (t : Token)
    (h : dropCond st t) : stepTok ic false st t = some st := by
  simp [stepTok, h]

/-- NEWLINE/NL tokens only set `needNewLine` and become
`previousTokenType`. -/
theorem stepTok_nl (ic : String) (st : StripState) (t : Token)
    (h : isNLKind t.type) :
    stepTok ic false st t
      = some { st with needNewLine := true, previousTokenType := t.type } := by
  obtain ⟨ty, tx⟩ := t
  rcases h with h | h <;> subst h <;>
    simp [stepTok, dropCond]

/-- DEDENT tokens decrement the level, may schedule a line break, and
become `previousTokenType`. -/
theorem stepTok_dedent (ic : String) (st : StripState) (tx : String) :
    stepTok ic false st ⟨TokType.DEDENT, tx⟩
      = some { st with
          indentLevel := st.indentLevel - 1
          needNewLine := if st.didNewLine then true else st.needNewLine
          previousTokenType := TokType.DEDENT } := by
  simp [stepTok, dropCond]

/-- INDENT while no line was just begun: increment the level and schedule a
line break. -/
theorem stepTok_indent (ic : String) (st : StripState) (tx : String)
    (h : st.didNewLine = false) :
    stepTok ic false st ⟨TokType.INDENT, tx⟩
      = some { st with
          indentLevel := st.indentLevel + 1
          needNewLine := true
          previousTokenType := TokType.INDENT } := by
  simp [stepTok, dropCond, h]

/-- INDENT while a line was just begun: the code executes
`mod.write( indentChar )` with `mod` undefined and raises `NameError`. -/
theorem stepTok_indent_crash (ic : String) (st : StripState) (tx : String)
    (h : st.didNewLine = true) :
    stepTok ic false st ⟨TokType.INDENT, tx⟩ = none := by
  simp [stepTok, dropCond, h]

/-- A content token that is not dropped: flush any pending line break with
the current indentation, write a separating space exactly when the spacing
rule fires, then write the token text; the token becomes
`previousTokenType`. -/
theorem stepTok_content (ic : String) (st : StripState) (t : Token)
    (hc : isContentKind t.type) (hd : ¬dropCond st t) :
    stepTok ic false st t
      = some { previousTokenType := t.type
               indentLevel := st.indentLevel
               didNewLine := st.needNewLine
               needNewLine := false
               out := st.out
                 ++ (if st.needNewLine then
                       "\n" ++ pyRepeat ic st.indentLevel else "")
                 ++ (if spaceCond st.previousTokenType t.type then " " else "")
                 ++ t.text } := by
  obtain ⟨hb, hcm⟩ := hc
  have h1 : t.type ≠ TokType.INDENT := fun h => hb (by simp [isBreakKind, h])
  have h2 : t.type ≠ TokType.DEDENT := fun h => hb (by simp [isBreakKind, h])
  have h3 : ¬(t.type = TokType.NEWLINE ∨ t.type = TokType.NL) := by
    intro h
    rcases h with h | h <;> exact hb (by simp [isBreakKind, h])
  simp only [stepTok, if_neg hd, if_neg h1, if_neg h2, if_neg h3,
    Bool.false_eq_true, if_false]
  cases hnl : st.needNewLine <;>
    simp [hnl, String.append_assoc]

/-- Extensionality for the loop state. -/
theorem StripState.ext' (a b : StripState)
    (h1 : a.previousTokenType = b.previousTokenType)
    (h2 : a.indentLevel = b.indentLevel)
    (h3 : a.didNewLine = b.didNewLine)
    (h4 : a.needNewLine = b.needNewLine)
    (h5 : a.out = b.out) : a = b := by
  cases a; cases b; simp_all

/-! ## Invariants of the loop -/

/-- Each step changes `indentLevel` by `+1` on INDENT, `-1` on DEDENT and
`0` otherwise. -/
theorem stepTok_level (ic : String) (st st1 : StripState) (t : Token)
    (h : stepTok ic false st t = some st1) :
    st1.indentLevel = st.indentLevel
      + (if t.type = TokType.INDENT then 1 else 0)
      - (if t.type = TokType.DEDENT then 1 else 0) := by
  by_cases hd : dropCond st t
  · rw [stepTok_drop ic st t hd] at h
    injection h with h'
    subst h'
    rcases hd with ⟨hty, _⟩ | hty <;> simp [hty]
  · obtain ⟨ty, tx⟩ := t
    cases ty with
    | NEWLINE =>
        rw [stepTok_nl ic st _ (Or.inl rfl)] at h
        injection h with h'; subst h'; simp
    | NL =>
        rw [stepTok_nl ic st _ (Or.inr rfl)] at h
        injection h with h'; subst h'; simp
    | INDENT =>
        cases hdn : st.didNewLine with
        | false =>
            rw [stepTok_indent ic st tx hdn] at h
            injection h with h'; subst h'; simp
        | true =>
            rw [stepTok_indent_crash ic st tx hdn] at h; cases h
    | DEDENT =>
        rw [stepTok_dedent ic st tx] at h
        injection h with h'; subst h'; simp
    | COMMENT => exact absurd (Or.inr rfl) hd
    | NAME =>
        rw [stepTok_content ic st ⟨TokType.NAME, tx⟩
          (by show isContentKind TokType.NAME; decide) hd] at h
        injection h with h'; subst h'; simp
    | NUMBER =>
        rw [stepTok_content ic st ⟨TokType.NUMBER, tx⟩
          (by show isContentKind TokType.NUMBER; decide) hd] at h
        injection h with h'; subst h'; simp
    | STRING =>
        rw [stepTok_content ic st ⟨TokType.STRING, tx⟩
          (by show isContentKind TokType.STRING; decide) hd] at h
        injection h with h'; subst h'; simp
    | OP =>
        rw [stepTok_content ic st ⟨TokType.OP, tx⟩
          (by show isContentKind TokType.OP; decide) hd] at h
        injection h with h'; subst h'; simp
    | ENDMARKER =>
        rw [stepTok_content ic st ⟨TokType.ENDMARKER, tx⟩
          (by show isContentKind TokType.ENDMARKER; decide) hd] at h
        injection h with h'; subst h'; simp

/-- Over a whole run, `indentLevel` is the running count of INDENT tokens
minus DEDENT tokens. -/
theorem runFrom_level (ic : String) (ts : List Token) (st st1 : StripState)
    (h : runFrom ic false st ts = some st1) :
    st1.indentLevel
      = st.indentLevel + countIndent ts - countDedent ts := by
  induction ts generalizing st with
  | nil =>
      rw [runFrom_nil] at h
      injection h with h'
      subst h'
      simp [countIndent, countDedent]
  | cons t ts ih =>
      rw [runFrom_cons] at h
      cases hs : stepTok ic false st t with
      | none => rw [hs] at h; cases h
      | some st2 =>
          rw [hs] at h
          rw [Option.some_bind'] at h
          have h2 := stepTok_level ic st st2 t hs
          have h3 := ih st2 h
          simp only [countIndent, countDedent]
          by_cases hI : t.type = TokType.INDENT
          · simp only [hI] at h2 ⊢
            simp at h2 ⊢
            omega
          · by_cases hD : t.type = TokType.DEDENT
            · simp only [hD] at h2 ⊢
              simp at h2 ⊢
              omega
            · simp only [if_neg hI, if_neg hD] at h2 ⊢
              simp at h2 ⊢
              omega

/-- A single step keeps the invariant that a scheduled-but-unwritten line
break can only follow a break-kind `previousTokenType`. -/
theorem stepTok_need_break (ic : String) (st st1 : StripState) (t : Token)
    (h : stepTok ic false st t = some st1)
    (h0 : st.needNewLine = true → isBreakKind st.previousTokenType) :
    st1.needNewLine = true → isBreakKind st1.previousTokenType := by
  by_cases hd : dropCond st t
  · rw [stepTok_drop ic st t hd] at h
    injection h with h'
    subst h'
    exact h0
  · obtain ⟨ty, tx⟩ := t
    cases ty with
    | NEWLINE =>
        rw [stepTok_nl ic st _ (Or.inl rfl)] at h
        injection h with h'; subst h'
        intro _
        simp [isBreakKind]
    | NL =>
        rw [stepTok_nl ic st _ (Or.inr rfl)] at h
        injection h with h'; subst h'
        intro _
        simp [isBreakKind]
    | INDENT =>
        cases hdn : st.didNewLine with
        | false =>
            rw [stepTok_indent ic st tx hdn] at h
            injection h with h'; subst h'
            intro _
            simp [isBreakKind]
        | true =>
            rw [stepTok_indent_crash ic st tx hdn] at h; cases h
    | DEDENT =>
        rw [stepTok_dedent ic st tx] at h
        injection h with h'; subst h'
        intro _
        simp [isBreakKind]
    | COMMENT => exact absurd (Or.inr rfl) hd
    | NAME =>
        rw [stepTok_content ic st ⟨TokType.NAME, tx⟩
          (by show isContentKind TokType.NAME; decide) hd] at h
        injection h with h'; subst h'
        intro hfalse
        simp at hfalse
    | NUMBER =>
        rw [stepTok_content ic st ⟨TokType.NUMBER, tx⟩
          (by show isContentKind TokType.NUMBER; decide) hd] at h
        injection h with h'; subst h'
        intro hfalse
        simp at hfalse
    | STRING =>
        rw [stepTok_content ic st ⟨TokType.STRING, tx⟩
          (by show isContentKind TokType.STRING; decide) hd] at h
        injection h with h'; subst h'
        intro hfalse
        simp at hfalse
    | OP =>
        rw [stepTok_content ic st ⟨TokType.OP, tx⟩
          (by show isContentKind TokType.OP; decide) hd] at h
        injection h with h'; subst h'
        intro hfalse
        simp at hfalse
    | ENDMARKER =>
        rw [stepTok_content ic st ⟨TokType.ENDMARKER, tx⟩
          (by show isContentKind TokType.ENDMARKER; decide) hd] at h
        injection h with h'; subst h'
        intro hfalse
        simp at hfalse

/-- Run version of `stepTok_need_break`. -/
theorem runFrom_need_break (ic : String) (ts : List Token) (st st1 : StripState)
    (h : runFrom ic false st ts = some st1)
    (h0 : st.needNewLine = true → isBreakKind st.previousTokenType) :
    st1.needNewLine = true → isBreakKind st1.previousTokenType := by
  induction ts generalizing st with
  | nil =>
      rw [runFrom_nil] at h
      injection h with h'
      subst h'
      exact h0
  | cons t ts ih =>
      rw [runFrom_cons] at h
      cases hs : stepTok ic false st t with
      | none => rw [hs] at h; cases h
      | some st2 =>
          rw [hs] at h
          rw [Option.some_bind'] at h
          exact ih st2 h (stepTok_need_break ic st st2 t hs h0)

/-- A run consisting only of NEWLINE/NL tokens never fails, writes nothing,
and leaves `indentLevel` and `didNewLine` unchanged; it either processes no
token at all or leaves `needNewLine` set with a NEWLINE/NL kind as
`previousTokenType`. -/
theorem runFrom_nlrun (ic : String) (mid : List Token) (st : StripState)
    (h : ∀ t ∈ mid, isNLKind t.type) :
    ∃ st1, runFrom ic false st mid = some st1 ∧ st1.out = st.out
      ∧ st1.indentLevel = st.indentLevel ∧ st1.didNewLine = st.didNewLine
      ∧ (st1 = st ∨ (st1.needNewLine = true ∧ isNLKind st1.previousTokenType)) := by
  induction mid generalizing st with
  | nil => exact ⟨st, rfl, rfl, rfl, rfl, Or.inl rfl⟩
  | cons t mid ih =>
      have ht := h t (by simp)
      obtain ⟨st1, h1, h2, h3, h4, h5⟩ :=
        ih { st with needNewLine := true, previousTokenType := t.type }
          (fun u hu => h u (by simp [hu]))
      refine ⟨st1, ?_, h2, h3, h4, ?_⟩
      · rw [runFrom_cons, stepTok_nl ic st t ht]
        simpa using h1
      · rcases h5 with h5 | h5
        · subst h5
          exact Or.inr ⟨rfl, ht⟩
        · exact Or.inr h5

/-! ## Observational equivalence (used for blank-line collapse) -/

/-- Two states that agree everywhere except possibly in
`previousTokenType`, which then is of NEWLINE/NL kind on both sides.  The
rest of a run cannot distinguish them except through the text they have
already written, which is equal. -/
def obsEquiv (a b : StripState) : Prop :=
  a.out = b.out ∧ a.indentLevel = b.indentLevel ∧ a.didNewLine = b.didNewLine
    ∧ a.needNewLine = b.needNewLine
    ∧ (a.previousTokenType = b.previousTokenType
        ∨ (isNLKind a.previousTokenType ∧ isNLKind b.previousTokenType))

theorem obsEquiv_refl (a : StripState) : obsEquiv a a :=
  ⟨rfl, rfl, rfl, rfl, Or.inl rfl⟩

/-- `stepTok` reads `previousTokenType` only through the drop and spacing
conditions. -/
theorem stepTok_congr_prev (ic : String) (t : Token) (a b : StripState)
    (ho : a.out = b.out) (hl : a.indentLevel = b.indentLevel)
    (hdn : a.didNewLine = b.didNewLine) (hnn : a.needNewLine = b.needNewLine)
    (hda : ¬dropCond a t) (hdb : ¬dropCond b t)
    (hsp : spaceCond a.previousTokenType t.type
      ↔ spaceCond b.previousTokenType t.type) :
    stepTok ic false a t = stepTok ic false b t := by
  obtain ⟨pa, la, da, na, oa⟩ := a
  obtain ⟨pb, lb, db, nb, ob⟩ := b
  dsimp at ho hl hdn hnn hsp
  subst ho; subst hl; subst hdn; subst hnn
  simp only [stepTok, if_neg hda, if_neg hdb, if_congr hsp rfl rfl]
  cases na <;> rfl

/-- One step taken from two observationally equivalent states either
fails on both or succeeds on both with observationally equivalent
results. -/
theorem stepTok_obsEquiv (ic : String) (t : Token) (a b : StripState)
    (h : obsEquiv a b) :
    (stepTok ic false a t = none ∧ stepTok ic false b t = none)
      ∨ ∃ a1 b1, stepTok ic false a t = some a1
          ∧ stepTok ic false b t = some b1 ∧ obsEquiv a1 b1 := by
  obtain ⟨ho, hl, hdn, hnn, hp⟩ := h
  rcases hp with hp | ⟨hpa, hpb⟩
  · have hab : a = b := StripState.ext' a b hp hl hdn hnn ho
    subst hab
    cases stepTok ic false a t with
    | none => exact Or.inl ⟨rfl, rfl⟩
    | some a1 => exact Or.inr ⟨a1, a1, rfl, rfl, obsEquiv_refl a1⟩
  · by_cases hcm : t.type = TokType.COMMENT
    · exact Or.inr ⟨a, b, stepTok_drop ic a t (Or.inr hcm),
        stepTok_drop ic b t (Or.inr hcm),
        ⟨ho, hl, hdn, hnn, Or.inr ⟨hpa, hpb⟩⟩⟩
    · have hda : ¬dropCond a t := by
        rintro (⟨_, hI⟩ | hC)
        · rcases hpa with hh | hh <;> rw [hh] at hI <;> cases hI
        · exact hcm hC
      have hdb : ¬dropCond b t := by
        rintro (⟨_, hI⟩ | hC)
        · rcases hpb with hh | hh <;> rw [hh] at hI <;> cases hI
        · exact hcm hC
      have hfa : ¬spaceCond a.previousTokenType t.type := by
        rintro ⟨_, hpn⟩
        rcases hpa with hh | hh <;> rcases hpn with h2 | h2 <;>
          rw [hh] at h2 <;> cases h2
      have hfb : ¬spaceCond b.previousTokenType t.type := by
        rintro ⟨_, hpn⟩
        rcases hpb with hh | hh <;> rcases hpn with h2 | h2 <;>
          rw [hh] at h2 <;> cases h2
      have heq := stepTok_congr_prev ic t a b ho hl hdn hnn hda hdb
        (iff_of_false hfa hfb)
      cases hs : stepTok ic false a t with
      | none => exact Or.inl ⟨rfl, heq.symm.trans hs⟩
      | some a1 =>
          exact Or.inr ⟨a1, a1, rfl, heq.symm.trans hs, obsEquiv_refl a1⟩

/-- Whole-run version of `stepTok_obsEquiv`. -/
theorem runFrom_obsEquiv (ic : String) (ts : List Token) (a b : StripState)
    (h : obsEquiv a b) :
    (runFrom ic false a ts = none ∧ runFrom ic false b ts = none)
      ∨ ∃ a1 b1, runFrom ic false a ts = some a1
          ∧ runFrom ic false b ts = some b1 ∧ obsEquiv a1 b1 := by
  induction ts generalizing a b with
  | nil => exact Or.inr ⟨a, b, rfl, rfl, h⟩
  | cons t ts ih =>
      rcases stepTok_obsEquiv ic t a b h with ⟨h1, h2⟩ | ⟨a1, b1, h1, h2, h3⟩
      · rw [runFrom_cons, runFrom_cons, h1, h2]
        exact Or.inl ⟨rfl, rfl⟩
      · rw [runFrom_cons, runFrom_cons, h1, h2, Option.some_bind',
          Option.some_bind']
        exact ih a1 b1 h3

/-- Observationally equivalent start states yield identical output text
(or fail together). -/
theorem runFrom_obsEquiv_out (ic : String) (ts : List Token)
    (a b : StripState) (h : obsEquiv a b) :
    (runFrom ic false a ts).map StripState.out
      = (runFrom ic false b ts).map StripState.out := by
  rcases runFrom_obsEquiv ic ts a b h with ⟨h1, h2⟩ | ⟨a1, b1, h1, h2, h3⟩
  · rw [h1, h2]
  · rw [h1, h2]
    simp [h3.1]

/-- Every processed (non-dropped) token becomes `previousTokenType`
(line 127 of `src/strip.py`). -/
theorem stepTok_prev (ic : String) (st st1 : StripState) (t : Token)
    (hd : ¬dropCond st t) (h : stepTok ic false st t = some st1) :
    st1.previousTokenType = t.type := by
  obtain ⟨ty, tx⟩ := t
  cases ty with
  | NEWLINE =>
      rw [stepTok_nl ic st _ (Or.inl rfl)] at h
      injection h with h'; subst h'; rfl
  | NL =>
      rw [stepTok_nl ic st _ (Or.inr rfl)] at h
      injection h with h'; subst h'; rfl
  | INDENT =>
      cases hdn : st.didNewLine with
      | false =>
          rw [stepTok_indent ic st tx hdn] at h
          injection h with h'; subst h'; rfl
      | true =>
          rw [stepTok_indent_crash ic st tx hdn] at h; cases h
  | DEDENT =>
      rw [stepTok_dedent ic st tx] at h
      injection h with h'; subst h'; rfl
  | COMMENT => exact absurd (Or.inr rfl) hd
  | NAME =>
      rw [stepTok_content ic st ⟨TokType.NAME, tx⟩
        (by show isContentKind TokType.NAME; decide) hd] at h
      injection h with h'; subst h'; rfl
  | NUMBER =>
      rw [stepTok_content ic st ⟨TokType.NUMBER, tx⟩
        (by show isContentKind TokType.NUMBER; decide) hd] at h
      injection h with h'; subst h'; rfl
  | STRING =>
      rw [stepTok_content ic st ⟨TokType.STRING, tx⟩
        (by show isContentKind TokType.STRING; decide) hd] at h
      injection h with h'; subst h'; rfl
  | OP =>
      rw [stepTok_content ic st ⟨TokType.OP, tx⟩
        (by show isContentKind TokType.OP; decide) hd] at h
      injection h with h'; subst h'; rfl
  | ENDMARKER =>
      rw [stepTok_content ic st ⟨TokType.ENDMARKER, tx⟩
        (by show isContentKind TokType.ENDMARKER; decide) hd] at h
      injection h with h'; subst h'; rfl

/-! ## Claims -/

/-- The token stream of the source text `a\n\tb\n\t\tc\n` (every line one
NAME, each line one tab deeper), a stream the Python tokenizer produces
without error. -/
def c1Input : List Token :=
  [⟨TokType.NAME, "a"⟩, ⟨TokType.NEWLINE, "\n"⟩, ⟨TokType.INDENT, "\t"⟩,
   ⟨TokType.NAME, "b"⟩, ⟨TokType.NEWLINE, "\n"⟩, ⟨TokType.INDENT, "\t\t"⟩,
   ⟨TokType.NAME, "c"⟩, ⟨TokType.NEWLINE, "\n"⟩, ⟨TokType.DEDENT, ""⟩,
   ⟨TokType.DEDENT, ""⟩, ⟨TokType.ENDMARKER, ""⟩]

/-- **C1**: the claim says an INDENT processed while a line was just begun
appends one indentation unit and processing continues.  In the code this
situation executes `mod.write( indentChar )` (line 87) where `mod` is an
undefined name, raising `NameError`: on the well-formed stream `c1Input`
the first five tokens run fine and leave `didNewLine = true`, the sixth
token is an INDENT, and the whole run fails. -/
theorem c1_indent_at_line_start_raises :
    stripRun "\t" false (c1Input.take 5)
      = some { previousTokenType := TokType.NEWLINE, indentLevel := 1,
               didNewLine := true, needNewLine := true, out := "a\n\tb" }
    ∧ stepTok "\t" false
        { previousTokenType := TokType.NEWLINE, indentLevel := 1,
          didNewLine := true, needNewLine := true, out := "a\n\tb" }
        ⟨TokType.INDENT, "\t\t"⟩ = none
    ∧ stripFile c1Input 0 false = none :=
  ⟨by decide, by decide, by decide⟩

/-- **C2** counterexample: a blank line (NL token) before the module
docstring updates `previousTokenType` to NL (line 127 runs for NL tokens
too), so the STRING that follows is *not* recognized as a docstring: its
text appears in the output. -/
theorem c2_counterexample_docstring_after_blank_line_kept :
    stripFile [⟨TokType.NL, "\n"⟩, ⟨TokType.STRING, "\"doc\""⟩,
        ⟨TokType.NEWLINE, "\n"⟩] 0 false
      = some "\n\"doc\""
    ∧ ∃ pre, ("\n\"doc\"" : String) = pre ++ "\"doc\"" :=
  ⟨by decide, "\n", rfl⟩

/-- **C2** amended: only COMMENT tokens before the first STRING leave
`previousTokenType` at the sentinel.  Dropping the comments and the
docstring is invisible: the run equals the run on the remaining stream, so
the docstring text is absent and the indentation of the following sibling
statements is exactly what it would have been without the docstring. -/
theorem c2_amended_comments_then_docstring_dropped (ic : String)
    (txt : String) (cs rest : List Token)
    (hc : ∀ c ∈ cs, c.type = TokType.COMMENT) :
    stripRun ic false (cs ++ ⟨TokType.STRING, txt⟩ :: rest)
      = stripRun ic false rest := by
  induction cs with
  | nil =>
      show runFrom ic false initState (⟨TokType.STRING, txt⟩ :: rest) = _
      rw [runFrom_cons, stepTok_drop ic initState _ (Or.inl ⟨rfl, rfl⟩),
        Option.some_bind']
      rfl
  | cons c cs ih =>
      show runFrom ic false initState (c :: (cs ++ _)) = _
      rw [runFrom_cons, stepTok_drop ic initState c (Or.inr (hc c (by simp))),
        Option.some_bind']
      exact ih (fun u hu => hc u (by simp [hu]))

theorem c2_amended_witness :
    stripRun "\t" false
        [⟨TokType.COMMENT, "# note"⟩, ⟨TokType.STRING, "\"doc\""⟩,
         ⟨TokType.NAME, "x"⟩]
      = stripRun "\t" false [⟨TokType.NAME, "x"⟩] :=
  c2_amended_comments_then_docstring_dropped "\t" "\"doc\""
    [⟨TokType.COMMENT, "# note"⟩] [⟨TokType.NAME, "x"⟩] (by decide)

/-- The token stream of `a\n\tb\n` up to and including the closing
DEDENT. -/
def c4Input : List Token :=
  [⟨TokType.NAME, "a"⟩, ⟨TokType.NEWLINE, "\n"⟩, ⟨TokType.INDENT, "\t"⟩,
   ⟨TokType.NAME, "b"⟩, ⟨TokType.NEWLINE, "\n"⟩, ⟨TokType.DEDENT, ""⟩]

/-- **C4** counterexample: after processing a DEDENT, `previousTokenType`
is `DEDENT` (line 127 stores the token's own type), *not* the sentinel
`INDENT`; consequently a STRING right after a DEDENT is emitted, not
dropped: its text ends up in the output. -/
theorem c4_counterexample_prev_after_dedent :
    stripRun "\t" false c4Input
      = some { previousTokenType := TokType.DEDENT, indentLevel := 0,
               didNewLine := true, needNewLine := true, out := "a\n\tb" }
    ∧ TokType.DEDENT ≠ TokType.INDENT
    ∧ stripFile
        (c4Input ++ [⟨TokType.STRING, "\"s\""⟩, ⟨TokType.NEWLINE, "\n"⟩])
        0 false
      = some "a\n\tb\n\"s\"" :=
  ⟨by decide, by decide, by decide⟩

/-- **C4** amended: after processing a DEDENT token `previousTokenType`
equals `DEDENT`, which differs from the sentinel, so a STRING token that
immediately follows a DEDENT is written to the output (preceded only by
line-break/indentation text), not dropped as a docstring. -/
theorem c4_amended_dedent_prev_not_sentinel (ic : String) (st : StripState)
    (tx txt : String) :
    ∃ st1, stepTok ic false st ⟨TokType.DEDENT, tx⟩ = some st1
      ∧ st1.previousTokenType = TokType.DEDENT
      ∧ st1.previousTokenType ≠ TokType.INDENT
      ∧ ∃ st2 sep, stepTok ic false st1 ⟨TokType.STRING, txt⟩ = some st2
          ∧ st2.out = st1.out ++ sep ++ txt := by
  refine ⟨{ st with
      indentLevel := st.indentLevel - 1
      needNewLine := if st.didNewLine then true else st.needNewLine
      previousTokenType := TokType.DEDENT },
    stepTok_dedent ic st tx, rfl, by simp, ?_⟩
  rw [stepTok_content ic _ ⟨TokType.STRING, txt⟩
    (by show isContentKind TokType.STRING; decide)
    (by rintro (⟨_, hI⟩ | hC) <;> simp_all)]
  refine ⟨_,
    (if (if st.didNewLine then true else st.needNewLine) = true then
        "\n" ++ pyRepeat ic (st.indentLevel - 1) else "")
      ++ (if spaceCond TokType.DEDENT TokType.STRING then " " else ""),
    rfl, ?_⟩
  simp [String.append_assoc]

/-- **C5**: exactly the tokens satisfying `dropCond` are discarded: every
COMMENT, and a STRING exactly when `previousTokenType` still holds the
sentinel.  A dropped token leaves the whole state — `previousTokenType`,
`indentLevel`, `didNewLine`, `needNewLine` — and the output untouched,
while every processed token updates `previousTokenType` to its own kind. -/
theorem c5_drop_exactness (ic : String) (st : StripState) (t : Token) :
    (dropCond st t ↔ t.type = TokType.COMMENT
      ∨ (t.type = TokType.STRING
          ∧ st.previousTokenType = TokType.INDENT))
    ∧ (dropCond st t → stepTok ic false st t = some st)
    ∧ (¬dropCond st t → ∀ st1, stepTok ic false st t = some st1
        → st1.previousTokenType = t.type) :=
  ⟨by unfold dropCond; tauto,
   fun h => stepTok_drop ic st t h,
   fun hd st1 h => stepTok_prev ic st st1 t hd h⟩

theorem c5_witness :
    stepTok "\t" false initState ⟨TokType.COMMENT, "# c"⟩ = some initState
    ∧ StripState.previousTokenType
        { previousTokenType := TokType.NAME, indentLevel := 0,
          didNewLine := false, needNewLine := false, out := "x" }
        = TokType.NAME :=
  ⟨(c5_drop_exactness "\t" initState ⟨TokType.COMMENT, "# c"⟩).2.1
      (by decide),
   (c5_drop_exactness "\t" initState ⟨TokType.NAME, "x"⟩).2.2 (by decide)
      _ (by decide)⟩

/-- Line 198 of `src/strip.py`: `stripFile( sourceFile, destinationFile,
args.indent )`.  The call passes only three arguments, so `debug` always
takes its default `False`: the parsed `-d`/`--dump` flag is never
forwarded to `stripFile`. -/
def mainStripCall (_dump : Bool) (source : List Token) (indent : Int) :
    Option String :=
  stripFile source indent false

/-- **C9**: the debug-dump feature is doubly broken.  The main program
never passes the flag to `stripFile`; and had it been passed, the trace
`print` on lines 61-69 names only undefined variables (`indentCount`,
`srcLine`, `srcCol`, `elineno`, `ecol`, `ltext`), so the very first token
raises `NameError` instead of printing a trace line. -/
theorem c9_debug_dump_broken :
    (∀ (d : Bool) source indent, mainStripCall d source indent
        = stripFile source indent false)
    ∧ (∀ ic st t, stepTok ic true st t = none)
    ∧ stripFile [⟨TokType.NAME, "x"⟩] 0 true = none :=
  ⟨fun _ _ _ => rfl, fun _ _ _ => rfl, by decide⟩

/-- Extending a successful run by one more successful step. -/
theorem stripRun_snoc (ic : String) (ts : List Token) (st st1 : StripState)
    (t : Token) (hrun : stripRun ic false ts = some st)
    (hstep : stepTok ic false st t = some st1) :
    stripRun ic false (ts ++ [t]) = some st1 := by
  have hrun' : runFrom ic false initState ts = some st := hrun
  show runFrom ic false initState (ts ++ [t]) = some st1
  rw [runFrom_append, hrun', Option.some_bind', runFrom_cons, hstep,
    Option.some_bind', runFrom_nil]

/-- **C6**: when two content tokens are emitted back to back (the second
directly after the first, with no break token between them), exactly one
space is written between the first token's text and the second token's
text if and only if both kinds are NAME or NUMBER; in every other
adjacency nothing separates them. -/
theorem c6_adjacent_token_spacing (ind : Int) (ts : List Token)
    (t1 t2 : Token) (st : StripState)
    (hrun : stripRun (indentCharOf ind) false ts = some st)
    (h1 : isContentKind t1.type) (h2 : isContentKind t2.type)
    (hd1 : ¬dropCond st t1) :
    ∃ st1 st2, stripRun (indentCharOf ind) false (ts ++ [t1]) = some st1
      ∧ stripRun (indentCharOf ind) false (ts ++ [t1, t2]) = some st2
      ∧ st2.out = st1.out
          ++ (if spaceCond t1.type t2.type then " " else "") ++ t2.text := by
  have hstep1 := stepTok_content (indentCharOf ind) st t1 h1 hd1
  have e1 := stripRun_snoc (indentCharOf ind) ts st _ t1 hrun hstep1
  have hd2 : ¬dropCond
      { previousTokenType := t1.type
        indentLevel := st.indentLevel
        didNewLine := st.needNewLine
        needNewLine := false
        out := st.out
          ++ (if st.needNewLine = true then
                "\n" ++ pyRepeat (indentCharOf ind) st.indentLevel else "")
          ++ (if spaceCond st.previousTokenType t1.type then " " else "")
          ++ t1.text } t2 := by
    rintro (⟨_, hI⟩ | hC)
    · have hI' : t1.type = TokType.INDENT := hI
      exact h1.1 (by rw [hI']; decide)
    · exact h2.2 hC
  have hstep2 := stepTok_content (indentCharOf ind) _ t2 h2 hd2
  have e2 := stripRun_snoc (indentCharOf ind) (ts ++ [t1]) _ _ t2 e1 hstep2
  rw [show (ts ++ [t1]) ++ [t2] = ts ++ [t1, t2] by simp] at e2
  exact ⟨_, _, e1, e2, by simp [String.append_assoc]⟩

theorem c6_witness :
    (∃ st1 st2,
      stripRun (indentCharOf 0) false [⟨TokType.NAME, "return"⟩] = some st1
      ∧ stripRun (indentCharOf 0) false
          [⟨TokType.NAME, "return"⟩, ⟨TokType.NAME, "x"⟩] = some st2
      ∧ st2.out = st1.out
          ++ (if spaceCond TokType.NAME TokType.NAME then " " else "") ++ "x")
    ∧ (∃ st1 st2,
      stripRun (indentCharOf 0) false [⟨TokType.NAME, "f"⟩] = some st1
      ∧ stripRun (indentCharOf 0) false
          [⟨TokType.NAME, "f"⟩, ⟨TokType.OP, "("⟩] = some st2
      ∧ st2.out = st1.out
          ++ (if spaceCond TokType.NAME TokType.OP then " " else "") ++ "(") :=
  ⟨c6_adjacent_token_spacing 0 [] ⟨TokType.NAME, "return"⟩ ⟨TokType.NAME, "x"⟩
      initState rfl (by decide) (by decide) (by decide),
   c6_adjacent_token_spacing 0 [] ⟨TokType.NAME, "f"⟩ ⟨TokType.OP, "("⟩
      initState rfl (by decide) (by decide) (by decide)⟩

/-- **C7**: when a content token is emitted while a line break is pending,
the break is written followed by the indentation unit repeated exactly
`indentLevel` times — and `indentLevel` is exactly the number of INDENT
tokens minus the number of DEDENT tokens processed so far.  No space
precedes the token (see also C10), so the token text follows the
indentation immediately. -/
theorem c7_indentation_fidelity (ind : Int) (ts : List Token) (t : Token)
    (st : StripState)
    (hrun : stripRun (indentCharOf ind) false ts = some st)
    (hneed : st.needNewLine = true)
    (hc : isContentKind t.type) (hd : ¬dropCond st t) :
    st.indentLevel = countIndent ts - countDedent ts
    ∧ ∃ st1, stripRun (indentCharOf ind) false (ts ++ [t]) = some st1
        ∧ st1.out = st.out
            ++ ("\n" ++ pyRepeat (indentCharOf ind) st.indentLevel)
            ++ t.text := by
  have hrun' : runFrom (indentCharOf ind) false initState ts = some st := hrun
  constructor
  · have hl := runFrom_level (indentCharOf ind) ts initState st hrun'
    simpa [initState] using hl
  · have hb := runFrom_need_break (indentCharOf ind) ts initState st hrun'
      (by decide) hneed
    have hsp : ¬spaceCond st.previousTokenType t.type := by
      rintro ⟨_, hpn⟩
      rcases hb with hh | hh | hh | hh <;> rcases hpn with h2 | h2 <;>
        rw [hh] at h2 <;> cases h2
    have hstep := stepTok_content (indentCharOf ind) st t hc hd
    exact ⟨_, stripRun_snoc (indentCharOf ind) ts st _ t hrun hstep,
      by simp [hneed, if_neg hsp, String.append_assoc]⟩

/-- Three levels of INDENT, then a content token on the deepest level. -/
def c7Input1 : List Token :=
  [⟨TokType.INDENT, "\t"⟩, ⟨TokType.INDENT, "\t\t"⟩,
   ⟨TokType.INDENT, "\t\t\t"⟩]

/-- `c7Input1` continued by a content token and two DEDENTs. -/
def c7Input2 : List Token :=
  c7Input1 ++ [⟨TokType.NAME, "x"⟩, ⟨TokType.NEWLINE, "\n"⟩,
   ⟨TokType.DEDENT, ""⟩, ⟨TokType.DEDENT, ""⟩]

theorem c7_witness :
    ((3 : Int) = countIndent c7Input1 - countDedent c7Input1
      ∧ ∃ st1, stripRun (indentCharOf 0) false
          (c7Input1 ++ [⟨TokType.NAME, "x"⟩]) = some st1
        ∧ st1.out = "\n\t\t\tx")
    ∧ ((1 : Int) = countIndent c7Input2 - countDedent c7Input2
      ∧ ∃ st1, stripRun (indentCharOf 0) false
          (c7Input2 ++ [⟨TokType.NAME, "y"⟩]) = some st1
        ∧ st1.out = "\n\t\t\tx" ++ ("\n" ++ "\t") ++ "y") :=
  ⟨c7_indentation_fidelity 0 c7Input1 ⟨TokType.NAME, "x"⟩
      { previousTokenType := TokType.INDENT, indentLevel := 3,
        didNewLine := false, needNewLine := true, out := "" }
      (by decide) rfl (by decide) (by decide),
   c7_indentation_fidelity 0 c7Input2 ⟨TokType.NAME, "y"⟩
      { previousTokenType := TokType.DEDENT, indentLevel := 1,
        didNewLine := true, needNewLine := true, out := "\n\t\t\tx" }
      (by decide) rfl (by decide) (by decide)⟩

/-- **C10**: while a line break is pending, `previousTokenType` is always
a break kind (NEWLINE, NL, INDENT or DEDENT) — every token that schedules
a line break stores its own kind in `previousTokenType` — so the spacing
rule cannot fire for the first content token of a line: that token is
written immediately after the line's indentation with no preceding
space, even when it and the previously emitted content token are both
NAME/NUMBER. -/
theorem c10_no_space_at_line_start (ind : Int) (ts : List Token)
    (st : StripState)
    (hrun : stripRun (indentCharOf ind) false ts = some st)
    (hneed : st.needNewLine = true) :
    isBreakKind st.previousTokenType
    ∧ (∀ k, ¬spaceCond st.previousTokenType k)
    ∧ ∀ t, isContentKind t.type → ¬dropCond st t →
        ∃ st1, stripRun (indentCharOf ind) false (ts ++ [t]) = some st1
          ∧ st1.out = st.out
              ++ ("\n" ++ pyRepeat (indentCharOf ind) st.indentLevel)
              ++ t.text := by
  have hrun' : runFrom (indentCharOf ind) false initState ts = some st := hrun
  have hb := runFrom_need_break (indentCharOf ind) ts initState st hrun'
    (by decide) hneed
  have hsp : ∀ k, ¬spaceCond st.previousTokenType k := by
    rintro k ⟨_, hpn⟩
    rcases hb with hh | hh | hh | hh <;> rcases hpn with h2 | h2 <;>
      rw [hh] at h2 <;> cases h2
  refine ⟨hb, hsp, ?_⟩
  intro t hc hd
  have hstep := stepTok_content (indentCharOf ind) st t hc hd
  exact ⟨_, stripRun_snoc (indentCharOf ind) ts st _ t hrun hstep,
    by simp [hneed, if_neg (hsp t.type), String.append_assoc]⟩

theorem c10_witness :
    isBreakKind TokType.NL
    ∧ (∀ k, ¬spaceCond TokType.NL k)
    ∧ ∃ st1, stripRun (indentCharOf 0) false
        ([⟨TokType.NAME, "a"⟩, ⟨TokType.NL, "\n"⟩] ++ [⟨TokType.NAME, "b"⟩])
        = some st1
      ∧ st1.out = "a\nb" := by
  have h := c10_no_space_at_line_start 0
    [⟨TokType.NAME, "a"⟩, ⟨TokType.NL, "\n"⟩]
    { previousTokenType := TokType.NL, indentLevel := 0,
      didNewLine := false, needNewLine := true, out := "a" }
    (by decide) rfl
  obtain ⟨st1, hr, ho⟩ := h.2.2 ⟨TokType.NAME, "b"⟩ (by decide) (by decide)
  exact ⟨h.1, h.2.1, st1, hr, ho⟩

/-- **C8**: NEWLINE/NL tokens only defer a line break.  First conjunct: a
run of NEWLINE/NL tokens at end-of-stream contributes nothing to the
output (zero line breaks).  Second conjunct: any NEWLINE/NL tokens
following a first one, with no content token between, can be deleted
without changing the output at all — a run of consecutive NEWLINE/NL
tokens contributes exactly what a single one does, hence at most one line
break. -/
theorem c8_blank_line_collapse (ind : Int) :
    (∀ ts mid, (∀ t ∈ mid, isNLKind t.type) →
        stripFile (ts ++ mid) ind false = stripFile ts ind false)
    ∧ (∀ ts1 t0 mid ts2, isNLKind t0.type →
        (∀ t ∈ mid, isNLKind t.type) →
        stripFile (ts1 ++ t0 :: (mid ++ ts2)) ind false
          = stripFile (ts1 ++ t0 :: ts2) ind false) := by
  constructor
  · intro ts mid hmid
    show (runFrom (indentCharOf ind) false initState (ts ++ mid)).map
        StripState.out
      = (runFrom (indentCharOf ind) false initState ts).map StripState.out
    rw [runFrom_append]
    cases hts : runFrom (indentCharOf ind) false initState ts with
    | none => rfl
    | some st =>
        obtain ⟨st1, h1, h2, _, _, _⟩ :=
          runFrom_nlrun (indentCharOf ind) mid st hmid
        rw [Option.some_bind', h1]
        simp [h2]
  · intro ts1 t0 mid ts2 ht0 hmid
    show (runFrom (indentCharOf ind) false initState
        (ts1 ++ t0 :: (mid ++ ts2))).map StripState.out
      = (runFrom (indentCharOf ind) false initState
        (ts1 ++ t0 :: ts2)).map StripState.out
    rw [runFrom_append, runFrom_append]
    cases hts : runFrom (indentCharOf ind) false initState ts1 with
    | none => rfl
    | some st =>
        rw [Option.some_bind', Option.some_bind', runFrom_cons, runFrom_cons,
          stepTok_nl (indentCharOf ind) st t0 ht0, Option.some_bind',
          Option.some_bind', runFrom_append]
        obtain ⟨stm, h1, h2, h3, h4, h5⟩ :=
          runFrom_nlrun (indentCharOf ind) mid
            { st with needNewLine := true, previousTokenType := t0.type } hmid
        rw [h1, Option.some_bind']
        rcases h5 with h5 | ⟨h5n, h5k⟩
        · rw [h5]
        · exact runFrom_obsEquiv_out (indentCharOf ind) ts2 stm
            { st with needNewLine := true, previousTokenType := t0.type }
            ⟨h2, h3, h4, by rw [h5n], Or.inr ⟨h5k, ht0⟩⟩

theorem c8_witness :
    stripFile [⟨TokType.NAME, "a"⟩, ⟨TokType.NL, "\n"⟩, ⟨TokType.NEWLINE, "\n"⟩]
        0 false
      = stripFile [⟨TokType.NAME, "a"⟩] 0 false
    ∧ stripFile [⟨TokType.NAME, "a"⟩, ⟨TokType.NEWLINE, "\n"⟩,
        ⟨TokType.NL, "\n"⟩, ⟨TokType.NL, "\n"⟩, ⟨TokType.NAME, "b"⟩] 0 false
      = stripFile [⟨TokType.NAME, "a"⟩, ⟨TokType.NEWLINE, "\n"⟩,
        ⟨TokType.NAME, "b"⟩] 0 false :=
  ⟨(c8_blank_line_collapse 0).1 [⟨TokType.NAME, "a"⟩]
      [⟨TokType.NL, "\n"⟩, ⟨TokType.NEWLINE, "\n"⟩] (by decide),
   (c8_blank_line_collapse 0).2 [⟨TokType.NAME, "a"⟩] ⟨TokType.NEWLINE, "\n"⟩
      [⟨TokType.NL, "\n"⟩, ⟨TokType.NL, "\n"⟩] [⟨TokType.NAME, "b"⟩]
      (by decide) (by decide)⟩

/-! ## A model of the external tokenizer, for the idempotence claim

The idempotence claim (C3) speaks about running the rewriter on *the token
stream of already-transformed output*.  Producing that stream is the job
of the input collaborator of §6 of the design (Python's
`tokenize.generate_tokens`, line 56 of `src/strip.py`), which is not part
of this repository.  The definitions below are therefore modelled from the
spec's description of the collaborator: a lexer that yields NAME / NUMBER
/ STRING / operator tokens with their literal text, one NEWLINE per
non-blank line, NL for blank lines, INDENT when a line starts deeper than
the enclosing level, matching DEDENTs when it returns, and trailing
DEDENTs plus an end-of-file marker at end of input.  It is only applied
here to rewriter output, which indents with tabs and contains no
comments. -/

/-- Split a character list into lines at `\n` (accumulator reversed). -/
def splitLinesAux : List Char → List Char → List (List Char)
  | [], acc => [acc.reverse]
  | c :: rest, acc =>
    if c == '\n' then acc.reverse :: splitLinesAux rest []
    else splitLinesAux rest (c :: acc)

/-- Characters that may continue a NAME token. -/
def isNameChar (c : Char) : Bool := c.isAlphanum || c == '_'

/-- Modelled from the spec: lex one line of rewriter output into NAME,
NUMBER, STRING and operator tokens, skipping blanks.  The fuel argument
bounds the recursion; callers pass the line length plus one, which always
suffices since every step consumes at least one character. -/
def lexLine : Nat → List Char → List Token
  | 0, _ => []
  | _ + 1, [] => []
  | fuel + 1, c :: rest =>
    if c == ' ' then lexLine fuel rest
    else if c == '\t' then lexLine fuel rest
    else if c == '"' then
      ⟨TokType.STRING,
        String.mk ('"' :: rest.takeWhile (fun d => !(d == '"')) ++ ['"'])⟩
        :: lexLine fuel ((rest.dropWhile (fun d => !(d == '"'))).drop 1)
    else if c.isAlpha || c == '_' then
      ⟨TokType.NAME, String.mk ((c :: rest).takeWhile isNameChar)⟩
        :: lexLine fuel ((c :: rest).dropWhile isNameChar)
    else if c.isDigit then
      ⟨TokType.NUMBER, String.mk ((c :: rest).takeWhile Char.isDigit)⟩
        :: lexLine fuel ((c :: rest).dropWhile Char.isDigit)
    else
      ⟨TokType.OP, String.mk [c]⟩ :: lexLine fuel rest

/-- Pop indentation-stack entries deeper than `d`, one DEDENT each. -/
def dedentsFor : List Nat → Nat → List Token × List Nat
  | [], _ => ([], [])
  | top :: stack, d =>
    if d < top then
      let p := dedentsFor stack d
      (⟨TokType.DEDENT, ""⟩ :: p.1, p.2)
    else ([], top :: stack)

/-- The current indentation depth (tabs) of the enclosing block. -/
def stackTop : List Nat → Nat
  | [] => 0
  | t :: _ => t

/-- Modelled from the spec: tokenize one output line.  Blank lines give a
single NL token; other lines give INDENT/DEDENT bookkeeping tokens from
the leading tabs, the lexed tokens, and a closing NEWLINE. -/
def tokenizeLine (stack : List Nat) (cs : List Char) : List Token × List Nat :=
  let tabs := (cs.takeWhile (fun c => c == '\t')).length
  let rest := cs.dropWhile (fun c => c == '\t')
  if rest.isEmpty then ([⟨TokType.NL, "\n"⟩], stack)
  else if stackTop stack < tabs then
    (⟨TokType.INDENT, String.mk (List.replicate tabs '\t')⟩
        :: (lexLine (rest.length + 1) rest ++ [⟨TokType.NEWLINE, "\n"⟩]),
      tabs :: stack)
  else
    let p := dedentsFor stack tabs
    (p.1 ++ lexLine (rest.length + 1) rest ++ [⟨TokType.NEWLINE, "\n"⟩], p.2)

/-- Tokenize the lines in order, closing open blocks at end of input and
appending the end-of-file marker. -/
def tokenizeLinesGo : List Nat → List (List Char) → List Token
  | stack, [] => (dedentsFor stack 0).1 ++ [⟨TokType.ENDMARKER, ""⟩]
  | stack, line :: rest =>
    (tokenizeLine stack line).1
      ++ tokenizeLinesGo (tokenizeLine stack line).2 rest

/-- A final `\n` terminates the last line rather than opening an empty
one. -/
def dropLastEmpty (lines : List (List Char)) : List (List Char) :=
  match lines.reverse with
  | [] :: r => r.reverse
  | _ => lines

/-- Modelled from the spec: the token stream of a piece of rewriter
output. -/
def tokenizeOutput (s : String) : List Token :=
  tokenizeLinesGo [] (dropLastEmpty (splitLinesAux s.toList []))

/-- The token stream of `def f():\n\t"a"\n\t"b"\n` — a suite that begins
with two consecutive string-literal expression statements. -/
def c3Input : List Token :=
  [⟨TokType.NAME, "def"⟩, ⟨TokType.NAME, "f"⟩, ⟨TokType.OP, "("⟩,
   ⟨TokType.OP, ")"⟩, ⟨TokType.OP, ":"⟩, ⟨TokType.NEWLINE, "\n"⟩,
   ⟨TokType.INDENT, "\t"⟩, ⟨TokType.STRING, "\"a\""⟩,
   ⟨TokType.NEWLINE, "\n"⟩, ⟨TokType.STRING, "\"b\""⟩,
   ⟨TokType.NEWLINE, "\n"⟩, ⟨TokType.DEDENT, ""⟩, ⟨TokType.ENDMARKER, ""⟩]

/-- **C3** counterexample: the transformation is not idempotent.  The
first pass on `c3Input` drops only the first string `"a"` and keeps
`"b"`.  In the re-tokenized output, `"b"` immediately follows the INDENT,
so the second pass drops it too: the second pass's output differs from
its input. -/
theorem c3_counterexample_not_idempotent :
    stripFile c3Input 0 false = some "def f():\n\t\"b\"\n"
    ∧ tokenizeOutput "def f():\n\t\"b\"\n"
      = [⟨TokType.NAME, "def"⟩, ⟨TokType.NAME, "f"⟩, ⟨TokType.OP, "("⟩,
         ⟨TokType.OP, ")"⟩, ⟨TokType.OP, ":"⟩, ⟨TokType.NEWLINE, "\n"⟩,
         ⟨TokType.INDENT, "\t"⟩, ⟨TokType.STRING, "\"b\""⟩,
         ⟨TokType.NEWLINE, "\n"⟩, ⟨TokType.DEDENT, ""⟩,
         ⟨TokType.ENDMARKER, ""⟩]
    ∧ stripFile (tokenizeOutput "def f():\n\t\"b\"\n") 0 false
      = some "def f():\n"
    ∧ stripFile (tokenizeOutput "def f():\n\t\"b\"\n") 0 false
      ≠ stripFile c3Input 0 false :=
  ⟨by decide, by decide, by decide, by decide⟩

/-- **C3** amended: a second pass *does* strip a second, legitimate
string expression statement when the first pass made it the leading
statement of its suite: the transformation is idempotent only on outputs
whose suites do not start with a string-literal statement. -/
theorem c3_amended_second_pass_strips_second_string :
    stripFile c3Input 0 false = some ("def f():\n" ++ "\t\"b\"\n")
    ∧ stripFile (tokenizeOutput ("def f():\n" ++ "\t\"b\"\n")) 0 false
      = some "def f():\n" :=
  ⟨by decide, by decide⟩
